import Mathlib

/-!
# Flok matching engine: verification of the core scoring, pricing and state logic

Shallow embedding of the Flok backend (apps/api/app): the domain models
(`app/domain/models.py`), feature extractor (`app/domain/features.py`),
logistic RSVP predictor (`app/ml/rsvp_model.py`), demand/pulse pricing
(`app/optimizer/pricing.py`), fairness helpers (`app/optimizer/fairness.py`),
scoring and assignment solver (`app/optimizer/solver.py`), the in-memory state
store (`app/services/state_store.py`) and the relevant HTTP route handlers
(`app/api/routes_events.py`, `app/api/routes_feedback.py`).

Python floats are modelled as real numbers; Python dicts are modelled as
association lists with first-match lookup (dicts keep insertion order and hold
each key once, so first-match lookup agrees with dict lookup whenever the keys
are distinct, which the store guarantees by construction); datetimes are
modelled as real-valued POSIX timestamps supplied by the caller.
-/

namespace Flok

/-- Association-list lookup: Python `dict.get(key)`. -/
def alistGet (m : List (String × α)) (k : String) : Option α :=
  match m with
  | [] => none
  | (k', v) :: rest => if k' = k then some v else alistGet rest k

/-- Python `dict.get(key, default)`. -/
def alistGetD (m : List (String × α)) (k : String) (d : α) : α :=
  (alistGet m k).getD d

/-- Python `dict[key] = value`: override in place when the key is present
(dicts keep the first insertion position), append otherwise. -/
def alistSet (m : List (String × α)) (k : String) (v : α) : List (String × α) :=
  match m with
  | [] => [(k, v)]
  | (k', v') :: rest =>
      if k' = k then (k, v) :: rest else (k', v') :: alistSet rest k v

/-- Build a Python dict from a list of key/value pairs (later duplicates
override earlier ones, first insertion position is kept). -/
def alistOf (l : List (String × α)) : List (String × α) :=
  l.foldl (fun m kv => alistSet m kv.1 kv.2) []

theorem alistGet_set_self (m : List (String × α)) (k : String) (v : α) :
    alistGet (alistSet m k v) k = some v := by
  induction m with
  | nil => simp [alistSet, alistGet]
  | cons hd tl ih =>
      by_cases h : hd.1 = k
      · simp [alistSet, alistGet, h]
      · simp [alistSet, alistGet, h, ih]

theorem alistGet_set_other (m : List (String × α)) (k k' : String) (v : α)
    (h : k ≠ k') : alistGet (alistSet m k v) k' = alistGet m k' := by
  induction m with
  | nil => simp [alistSet, alistGet, h]
  | cons hd tl ih =>
      by_cases hh : hd.1 = k
      · simp [alistSet, alistGet, hh, h]
      · simp [alistSet, alistGet, hh, ih]

/-! ## Domain models (`app/domain/models.py`)

`capacity` is a natural number: the data model declares it a non-negative
integer, and both fixtures and the event-creation endpoints respect that. -/

/-- `models.User`. -/
structure User where
  id : String
  interest_tags : List String
  lat : ℝ
  lng : ℝ
  max_travel_mins : ℤ
  availability : List String
  group_pref : String
  intensity_pref : String
  goal : Option String
  cohort : Option String

/-- `models.Opportunity`. -/
structure Opportunity where
  id : String
  title : String
  tags : List String
  category : String
  time_bucket : String
  lat : ℝ
  lng : ℝ
  capacity : ℕ
  group_size : String
  intensity : String
  beginner_friendly : Bool

/-- `models.Interaction`; `ts` is a POSIX timestamp. -/
structure Interaction where
  user_id : String
  opp_id : String
  event : String
  ts : ℝ

/-! ## Configuration (`app/core/config.py`)

`Settings` holds exactly the fields of the frozen dataclass in `config.py`
(lines 28-41); note that there is no `newcomer_boost` field. -/

/-- `config.Settings`. -/
structure Settings where
  distance_scale_mins : ℝ
  pricing_lambda : ℝ
  pricing_liquidity_k : ℝ
  demand_decay_tau_hours : ℝ
  fairness_lambda : ℝ
  cors_origins : List String
  rsvp_impressions_log_path : String
  rsvp_events_log_path : String
  rsvp_model_path : String

/-- The defaults produced by `get_settings` with an empty environment. -/
noncomputable def defaultSettings : Settings :=
  { distance_scale_mins := 10.0
    pricing_lambda := 1.0
    pricing_liquidity_k := 5.0
    demand_decay_tau_hours := 12.0
    fairness_lambda := 0.5
    cors_origins := ["*"]
    rsvp_impressions_log_path := "data/impressions.jsonl"
    rsvp_events_log_path := "data/rsvps.jsonl"
    rsvp_model_path := "data/rsvp_model.json" }

/-! ## Feature extractor (`app/domain/features.py`) -/

/-- Python `str.lower()` (structural model; `String.toLower` itself is
defined by well-founded recursion over positions, which blocks kernel
evaluation). -/
def strLower (s : String) : String := ⟨s.data.map Char.toLower⟩

/-- The set comprehension `{t.lower() for t in tags if t}`: lowercased
non-empty tags, as a finite set. -/
def tagSet (tags : List String) : Finset String :=
  ((tags.filter (fun t => t ≠ "")).map strLower).toFinset

/-- `features.interest_jaccard`. -/
noncomputable def interest_jaccard (tags_u tags_o : List String) : ℝ :=
  if tagSet tags_u = ∅ ∧ tagSet tags_o = ∅ then 0.0
  else if tagSet tags_u ∪ tagSet tags_o = ∅ then 0.0
  else ((tagSet tags_u ∩ tagSet tags_o).card : ℝ) /
    ((tagSet tags_u ∪ tagSet tags_o).card : ℝ)

/-- `features.travel_minutes`. -/
noncomputable def travel_minutes (settings : Settings) (user : User) (opp : Opportunity) : ℝ :=
  Real.sqrt ((user.lat - opp.lat) ^ 2 + (user.lng - opp.lng) ^ 2) *
    settings.distance_scale_mins

/-- `features.travel_penalty`. -/
noncomputable def travel_penalty (settings : Settings) (user : User) (opp : Opportunity) : ℝ :=
  if user.max_travel_mins ≤ 0 then 1.0
  else min 1.0 (travel_minutes settings user opp / (user.max_travel_mins : ℝ))

/-- `features.availability_ok`. -/
def availability_ok (user : User) (opp : Opportunity) : Bool :=
  if user.availability = [] then true
  else user.availability.contains opp.time_bucket

/-- The encoding `{"small": 0.0, "medium": 0.5, "large": 1.0}` with default
0.5 for unknown labels (`dict.get(x, 0.5)` is implicit in the source via
`mapping.get`). -/
noncomputable def groupNum (label : String) : ℝ :=
  alistGetD [("small", 0.0), ("medium", 0.5), ("large", 1.0)] label 0.5

/-- The encoding `{"low": 0.0, "med": 0.5, "high": 1.0}` with default 0.5. -/
noncomputable def intensityNum (label : String) : ℝ :=
  alistGetD [("low", 0.0), ("med", 0.5), ("high", 1.0)] label 0.5

/-- `features.group_size_match`. -/
noncomputable def group_size_match (user : User) (opp : Opportunity) : ℝ :=
  1.0 - |groupNum user.group_pref - groupNum opp.group_size|

/-- `features.intensity_mismatch`. -/
noncomputable def intensity_mismatch (user : User) (opp : Opportunity) : ℝ :=
  |intensityNum user.intensity_pref - intensityNum opp.intensity|

/-- `features.novelty_bonus`. -/
noncomputable def novelty_bonus (user : User) (opp : Opportunity)
    (interactions : List Interaction) : ℝ :=
  if interactions.isEmpty then 0.5
  else if interactions.any (fun i => i.user_id = user.id && i.opp_id = opp.id) then 0.0
  else 1.0

/-- The feature dictionary returned by `features.compute_feature_vector`. -/
structure FeatureVector where
  interest : ℝ
  travel_minutes : ℝ
  travel_penalty : ℝ
  availability_ok : ℝ
  group_match : ℝ
  intensity_mismatch : ℝ
  novelty_bonus : ℝ

/-- `features.compute_feature_vector`: features plus reason chips. -/
noncomputable def compute_feature_vector (settings : Settings) (user : User)
    (opp : Opportunity) (interactions : List Interaction) :
    FeatureVector × List String :=
  let interest := interest_jaccard user.interest_tags opp.tags
  let travel_mins := travel_minutes settings user opp
  let penalty := travel_penalty settings user opp
  let avail_ok := availability_ok user opp
  let group_match := group_size_match user opp
  let intensity_gap := intensity_mismatch user opp
  let novelty := novelty_bonus user opp interactions
  let chips :=
    (if interest ≥ 0.5 then ["Matches interests"] else []) ++
    (if penalty ≤ 0.3 then ["Close by"] else []) ++
    (if avail_ok then ["Fits availability"] else []) ++
    (if group_match ≥ 0.7 then ["Good group size"] else []) ++
    (if intensity_gap ≤ 0.2 then ["Comfortable intensity"] else []) ++
    (if novelty ≥ 0.7 then ["Fresh option"] else [])
  (⟨interest, travel_mins, penalty, if avail_ok then 1.0 else 0.0,
    group_match, intensity_gap, novelty⟩, chips)

/-! ## Logistic RSVP predictor (`app/ml/rsvp_model.py`) -/

/-- `rsvp_model.FEATURE_ORDER`. -/
def FEATURE_ORDER : List String :=
  ["interest", "goal_match", "group_match", "travel_penalty",
   "intensity_mismatch", "novelty_bonus", "pulse_centered", "availability_ok"]

/-- `rsvp_model.LogisticModel`. -/
structure LogisticModel where
  feature_order : List String
  weights : List ℝ
  bias : ℝ

/-- `rsvp_model._sigmoid` (also `pricing._sigmoid`). -/
noncomputable def sigmoid (x : ℝ) : ℝ := 1 / (1 + Real.exp (-x))

/-- `LogisticModel.predict_proba`. The source indexes `self.weights[idx]`
for `idx` ranging over `enumerate(self.feature_order)`; out-of-range weights
are modelled as 0 (the source would raise `IndexError`, a path no caller in
the repository reaches with a well-formed artifact). -/
noncomputable def predict_proba (model : LogisticModel)
    (features : List (String × ℝ)) : ℝ :=
  let z := (List.range model.feature_order.length).foldl
    (fun acc idx =>
      acc + (model.weights.getD idx 0.0) *
        (alistGetD features (model.feature_order.getD idx "") 0.0))
    model.bias
  sigmoid z

/-- The JSON model artifact `{feature_order, weights, bias}`; each field is
optional (`payload.get`). -/
structure ModelPayload where
  feature_order : Option (List String)
  weights : Option (List ℝ)
  bias : Option ℝ

/-- `rsvp_model._default_model`. -/
def default_model : LogisticModel :=
  { feature_order := FEATURE_ORDER
    weights := List.replicate FEATURE_ORDER.length 0.0
    bias := 0.0 }

/-- Python truthiness fallback `payload.get(k) or default`: `none` and the
empty list are falsy. -/
def orDefault (v : Option (List α)) (d : List α) : List α :=
  match v with
  | none => d
  | some [] => d
  | some l => l

/-- `rsvp_model.load_model`: `none` models a missing artifact file
(`model_path.exists()` false). -/
def load_model (payload : Option ModelPayload) : LogisticModel :=
  match payload with
  | none => default_model
  | some p =>
      let feature_order := orDefault p.feature_order FEATURE_ORDER
      let weights := orDefault p.weights (List.replicate feature_order.length 0.0)
      let bias := p.bias.getD 0.0
      { feature_order := feature_order, weights := weights, bias := bias }

/-- `ml.build_ml_feature_dict`. -/
def build_ml_feature_dict (interest goal_match group_match travel_penalty
    intensity_mismatch novelty_bonus pulse_centered availability_ok : ℝ) :
    List (String × ℝ) :=
  [("interest", interest), ("goal_match", goal_match),
   ("group_match", group_match), ("travel_penalty", travel_penalty),
   ("intensity_mismatch", intensity_mismatch), ("novelty_bonus", novelty_bonus),
   ("pulse_centered", pulse_centered), ("availability_ok", availability_ok)]

/-! ## Demand/pulse pricing (`app/optimizer/pricing.py`) -/

/-- `pricing.PricingConfig`. -/
structure PricingConfig where
  lambda_price : ℝ
  liquidity_k : ℝ

/-- The optional overrides dict passed to `get_pricing_config` (only the keys
`lambda_price` and `liquidity_k` are consulted). -/
structure PricingOverrides where
  lambda_price : Option ℝ
  liquidity_k : Option ℝ

/-- `pricing.get_pricing_config`. -/
def get_pricing_config (settings : Settings) (overrides : Option PricingOverrides) :
    PricingConfig :=
  let cfg : PricingConfig :=
    { lambda_price := settings.pricing_lambda
      liquidity_k := settings.pricing_liquidity_k }
  match overrides with
  | none => cfg
  | some o =>
      { lambda_price := (o.lambda_price).getD cfg.lambda_price
        liquidity_k := (o.liquidity_k).getD cfg.liquidity_k }

/-- `pricing.pulse_from_demand`. -/
noncomputable def pulse_from_demand (net_demand liquidity : ℝ) : ℝ :=
  if liquidity ≤ 0 then 50.0
  else 100.0 * sigmoid (net_demand / liquidity)

/-! ## Fairness (`app/optimizer/fairness.py`) -/

/-- Bump a counter dict: `d[k] = d.get(k, 0) + 1`. -/
def bumpCount (m : List (String × ℕ)) (k : String) : List (String × ℕ) :=
  alistSet m k (alistGetD m k 0 + 1)

/-- `fairness.exposure_rates`. -/
noncomputable def exposure_rates (users : List User)
    (assignments : List (String × String)) : List (String × ℝ) :=
  let user_map := alistOf (users.map (fun u => (u.id, u)))
  let cohort_totals := users.foldl
    (fun m u => match u.cohort with
      | none => m
      | some c => bumpCount m c) ([] : List (String × ℕ))
  let cohort_assigned := assignments.foldl
    (fun m a => match alistGet user_map a.1 with
      | none => m
      | some u => match u.cohort with
        | none => m
        | some c => bumpCount m c) ([] : List (String × ℕ))
  cohort_totals.map (fun ct =>
    (ct.1, if ct.2 > 0 then ((alistGetD cohort_assigned ct.1 0 : ℕ) : ℝ) / (ct.2 : ℝ) else 0.0))

/-- `max(rates.values())` for a non-empty dict (0 for the empty dict, a case
the callers guard against). -/
noncomputable def maxRate (rates : List (String × ℝ)) : ℝ :=
  match rates with
  | [] => 0.0
  | r :: rest => rest.foldl (fun acc x => max acc x.2) r.2

/-- `fairness.fairness_boost`. -/
noncomputable def fairness_boost (user : User) (rates : List (String × ℝ)) : ℝ :=
  match user.cohort with
  | none => 0.0
  | some c =>
      if rates = [] then 0.0
      else max 0.0 (maxRate rates - alistGetD rates c 0.0)

/-! ## State store (`app/services/state_store.py`)

The `demo_*` fields of the Python store are pure demo-tooling data that none
of the modelled operations read; they are omitted from the record. -/

/-- `state_store.StateStore`. -/
structure StateStore where
  users : List (String × User)
  opps : List (String × Opportunity)
  prices : List (String × ℝ)
  avg_fill : List (String × ℝ)
  net_demand : List (String × ℝ)
  last_demand_ts : List (String × ℝ)
  shown_window : List (String × ℕ)
  interactions : List Interaction
  last_assignment : List (String × String)
  rsvps : List (String × List String)
  pulse_history : List (String × List (String × ℝ))

/-- `StateStore.reset`: every map cleared. -/
def emptyStore : StateStore :=
  { users := [], opps := [], prices := [], avg_fill := [], net_demand := []
    last_demand_ts := [], shown_window := [], interactions := []
    last_assignment := [], rsvps := [], pulse_history := [] }

/-- `if key not in d: d[key] = v`. -/
def setIfMissing (m : List (String × α)) (k : String) (v : α) : List (String × α) :=
  match alistGet m k with
  | some _ => m
  | none => alistSet m k v

/-- `StateStore._ensure_opp_state`; `now` is the current POSIX timestamp. -/
def ensureOppState (s : StateStore) (opp_id : String) (now : ℝ) : StateStore :=
  { s with
    prices := setIfMissing s.prices opp_id 0.0
    avg_fill := setIfMissing s.avg_fill opp_id 1.0
    net_demand := setIfMissing s.net_demand opp_id 0.0
    last_demand_ts := setIfMissing s.last_demand_ts opp_id now
    shown_window := setIfMissing s.shown_window opp_id 0
    rsvps := setIfMissing s.rsvps opp_id []
    pulse_history := setIfMissing s.pulse_history opp_id [] }

/-- The `{user_id, opp_id, event}` triple handed to `record_feedback` (both
the dict and the attribute form of the source normalize to this). -/
structure FeedbackEvent where
  user_id : String
  opp_id : String
  event : String

/-- The demand delta of an event per state_store.py lines 147-153. -/
noncomputable def demandDelta (ev : String) : ℝ :=
  if ev = "accepted" then 1.0
  else if ev = "declined" then -0.5
  else if ev = "clicked" then 0.2
  else 0.0

/-- The decayed-and-bumped net demand (state_store.py lines 155-165). -/
noncomputable def decayedNet (settings : Settings) (net last_ts now delta : ℝ) : ℝ :=
  (if settings.demand_decay_tau_hours > 0 then
    net * Real.exp (-((now - last_ts) / (settings.demand_decay_tau_hours * 3600.0)))
  else net) + delta

/-- `StateStore.record_feedback`. Python truthiness makes an empty `opp_id`
or event string an early return. The source's sequential mutations are
gathered into one record update (each field's guard is the source's). -/
noncomputable def recordFeedback (settings : Settings) (s : StateStore)
    (e : FeedbackEvent) (now : ℝ) : StateStore :=
  if e.opp_id = "" ∨ e.event = "" then s
  else
    let s1 := ensureOppState s e.opp_id now
    let delta := demandDelta e.event
    { s1 with
      interactions := s1.interactions ++
        [⟨if e.user_id = "" then "unknown" else e.user_id, e.opp_id, e.event, now⟩]
      shown_window :=
        if e.event ∈ ["shown", "clicked", "accepted", "declined"] then
          alistSet s1.shown_window e.opp_id (alistGetD s1.shown_window e.opp_id 0 + 1)
        else s1.shown_window
      net_demand :=
        if delta ≠ 0.0 then
          alistSet s1.net_demand e.opp_id
            (decayedNet settings (alistGetD s1.net_demand e.opp_id 0.0)
              (alistGetD s1.last_demand_ts e.opp_id now) now delta)
        else s1.net_demand
      last_demand_ts :=
        if delta ≠ 0.0 then alistSet s1.last_demand_ts e.opp_id now
        else s1.last_demand_ts }

/-- The decoded JSON fixture `{users, opps}` consumed by `load_fixture`. -/
structure FixturePayload where
  users : List User
  opps : List Opportunity

/-- `StateStore.load_fixture` after the JSON has been decoded. -/
def loadFixture (payload : FixturePayload) (now : ℝ) : StateStore :=
  let base : StateStore :=
    { emptyStore with
      users := alistOf (payload.users.map (fun u => (u.id, u)))
      opps := alistOf (payload.opps.map (fun o => (o.id, o))) }
  (base.opps.map Prod.fst).foldl (fun s opp_id => ensureOppState s opp_id now) base

/-- `pricing.compute_pulses`: updates `store.prices` (and, when
`record_history` is set, the bounded pulse history) and returns the pulse
map; `nowIso` is the ISO timestamp the source samples lazily. -/
noncomputable def compute_pulses (settings : Settings) (store : StateStore)
    (capacities : List (String × ℕ)) (overrides : Option PricingOverrides)
    (record_history : Bool) (nowIso : String) :
    StateStore × List (String × ℝ) :=
  let cfg := get_pricing_config settings overrides
  capacities.foldl
    (fun (acc : StateStore × List (String × ℝ)) entry =>
      let (store, pulses) := acc
      let opp_id := entry.1
      let cap := entry.2
      let liquidity := cfg.liquidity_k * ((max 1 cap : ℕ) : ℝ)
      let net := alistGetD store.net_demand opp_id 0.0
      let pulse := pulse_from_demand net liquidity
      let store := { store with prices := alistSet store.prices opp_id pulse }
      let store :=
        if record_history then
          let history := alistGetD store.pulse_history opp_id [] ++ [(nowIso, pulse)]
          let history := if history.length > 50 then history.drop (history.length - 50) else history
          { store with pulse_history := alistSet store.pulse_history opp_id history }
        else store
      (store, alistSet pulses opp_id pulse))
    (store, [])

/-! ## Scoring pipeline (`app/optimizer/solver.py`) -/

/-- `solver.DEFAULT_WEIGHTS`. -/
noncomputable def DEFAULT_WEIGHTS : List (String × ℝ) :=
  [("w_interest", 3.0), ("w_goal", 2.0), ("w_group", 1.0),
   ("w_travel", 3.0), ("w_intensity", 1.0), ("w_novelty", 0.5)]

/-- `solver.GOAL_HINTS`. -/
def GOAL_HINTS : List (String × List String) :=
  [("friends", ["social", "community", "hangout", "meetup"]),
   ("active", ["fitness", "sports", "outdoor", "active"]),
   ("volunteer", ["volunteer", "service", "community"]),
   ("learn", ["learn", "education", "workshop", "class", "training"])]

/-- Python `needle in haystack` on strings. -/
def substrIn (needle haystack : String) : Bool :=
  (List.range (haystack.toList.length + 1)).any
    (fun i => needle.toList.isPrefixOf (haystack.toList.drop i))

/-- `solver._goal_match`. -/
def goal_match_fn (user : User) (opp : Opportunity) : ℝ :=
  match user.goal with
  | none => 0.0
  | some g =>
      if g = "" then 0.0
      else
        let hints := alistGetD GOAL_HINTS g []
        let haystack := strLower (String.intercalate " " (opp.category :: opp.tags))
        if hints.any (fun h => substrIn h haystack) then 1.0 else 0.0

/-- `solver._merge_weights`; override values are optional because the source
skips `None` values. -/
noncomputable def merge_weights (overrides : Option (List (String × Option ℝ))) :
    List (String × ℝ) :=
  match overrides with
  | none => DEFAULT_WEIGHTS
  | some ov =>
      ov.foldl
        (fun merged kv =>
          match kv.2 with
          | none => merged
          | some v =>
              if (alistGet merged kv.1).isSome then alistSet merged kv.1 v else merged)
        DEFAULT_WEIGHTS

/-- `models.ScoreExplanation`. -/
structure ScoreExplanation where
  score : ℝ
  breakdown : List (String × ℝ)
  reason_chips : List String

/-- `{"newcomer", "first_time", "first-time", "new"}`. -/
def newcomer_labels : List String := ["newcomer", "first_time", "first-time", "new"]

/-- `bool(user.cohort and user.cohort.lower() in newcomer_labels)`. -/
def isNewcomer (user : User) : Bool :=
  match user.cohort with
  | none => false
  | some c => c ≠ "" && newcomer_labels.contains (strLower c)

/-- The per-pair parameters of the scoring loop in `build_score_matrix`. -/
structure ScoreParams where
  settings : Settings
  model : LogisticModel
  pricing_cfg : PricingConfig
  fairness_rates : List (String × ℝ)
  lambda_fair : ℝ
  apply_fairness : Bool
  interactions : List Interaction
  pulse_map : List (String × ℝ)

/-- One iteration of the inner loop of `build_score_matrix` (solver.py lines
80-131): `none` when the pair is skipped for hard infeasibility. The branch
applying the newcomer boost evaluates `settings.newcomer_boost`, an attribute
that the `Settings` dataclass in `config.py` does not define, so the source
raises `AttributeError` whenever `is_newcomer and opp.beginner_friendly` holds;
the embedding returns that error. -/
noncomputable def scorePair (p : ScoreParams) (user : User) (opp : Opportunity) :
    Except String (Option (ℝ × ScoreExplanation)) :=
  let fc := compute_feature_vector p.settings user opp p.interactions
  let features := fc.1
  let reason_chips := fc.2
  if features.availability_ok < 0.5 then Except.ok none
  else
    let goal_match := goal_match_fn user opp
    let pulse := alistGetD p.pulse_map opp.id 50.0
    let pulse_centered := pulse - 50.0
    let ml_features := build_ml_feature_dict features.interest goal_match
      features.group_match features.travel_penalty features.intensity_mismatch
      features.novelty_bonus pulse_centered features.availability_ok
    let s_ml_raw := predict_proba p.model ml_features
    if isNewcomer user && opp.beginner_friendly then
      Except.error "AttributeError: 'Settings' object has no attribute 'newcomer_boost'"
    else
      let s_ml := s_ml_raw
      let newcomer_boost := 0.0
      let price_adjustment := -p.pricing_cfg.lambda_price * pulse_centered
      let score_adj := s_ml + price_adjustment
      let boost := if p.apply_fairness then fairness_boost user p.fairness_rates else 0.0
      let score_final := score_adj +
        (if p.apply_fairness then p.lambda_fair * boost else 0.0)
      Except.ok (some (score_final,
        { score := score_final
          breakdown :=
            [("interest", features.interest), ("goal_match", goal_match),
             ("group_match", features.group_match),
             ("travel_minutes", features.travel_minutes),
             ("travel_penalty", features.travel_penalty),
             ("intensity_mismatch", features.intensity_mismatch),
             ("novelty_bonus", features.novelty_bonus),
             ("s_ml_raw", s_ml_raw), ("newcomer_boost", newcomer_boost),
             ("s_ml", s_ml), ("price", pulse), ("pulse_centered", pulse_centered),
             ("price_adjustment", price_adjustment), ("fairness_boost", boost),
             ("final_score", score_final)]
          reason_chips := reason_chips }))

/-- The inner `for opp in opps` loop of `build_score_matrix`, threading the
per-user score row and the global explanation dict. -/
noncomputable def scoreRowAux (p : ScoreParams) (user : User) :
    List Opportunity → List (String × ℝ) × List (String × ScoreExplanation) →
    Except String (List (String × ℝ) × List (String × ScoreExplanation))
  | [], acc => Except.ok acc
  | opp :: rest, (row, ex) =>
      match scorePair p user opp with
      | Except.error msg => Except.error msg
      | Except.ok none => scoreRowAux p user rest (row, ex)
      | Except.ok (some sc) =>
          scoreRowAux p user rest
            (alistSet row opp.id sc.1,
             alistSet ex (user.id ++ "|" ++ opp.id) sc.2)

/-- The outer `for user in users` loop of `build_score_matrix`. -/
noncomputable def buildAux (p : ScoreParams) (opps : List Opportunity) :
    List User →
    List (String × List (String × ℝ)) × List (String × ScoreExplanation) →
    Except String (List (String × List (String × ℝ)) × List (String × ScoreExplanation))
  | [], acc => Except.ok acc
  | user :: rest, (sm, ex) =>
      match scoreRowAux p user opps ([], ex) with
      | Except.error msg => Except.error msg
      | Except.ok (row, ex') => buildAux p opps rest (alistSet sm user.id row, ex')

/-- `solver.build_score_matrix`. `model` stands for the process-global
`get_model()` result. The call mutates `store.prices` through
`compute_pulses`; the returned matrix and explanations, which this
development reasons about, use only the returned pulse map. -/
noncomputable def build_score_matrix (settings : Settings) (model : LogisticModel)
    (users : List User) (opps : List Opportunity) (store : StateStore)
    (weight_overrides : Option (List (String × Option ℝ)))
    (pricing_overrides : Option PricingOverrides)
    (apply_fairness : Bool) (lambda_fair_override : Option ℝ) :
    Except String
      (List (String × List (String × ℝ)) × List (String × ScoreExplanation)) :=
  let _weights := merge_weights weight_overrides
  let pricing_cfg := get_pricing_config settings pricing_overrides
  let fairness_rates := exposure_rates users store.last_assignment
  let lambda_fair := lambda_fair_override.getD settings.fairness_lambda
  let capacities := alistOf (opps.map (fun o => (o.id, o.capacity)))
  let pulse_map := (compute_pulses settings store capacities pricing_overrides false "").2
  let p : ScoreParams :=
    { settings := settings, model := model, pricing_cfg := pricing_cfg
      fairness_rates := fairness_rates, lambda_fair := lambda_fair
      apply_fairness := apply_fairness, interactions := store.interactions
      pulse_map := pulse_map }
  buildAux p opps users ([], [])

/-! ## Assignment solver (`solver.solve_assignment` and friends) -/

/-- Stable insertion into a descending-sorted list: the model of
`sorted(..., key=lambda item: item[1], reverse=True)`. -/
noncomputable def insertDesc (x : String × ℝ) : List (String × ℝ) → List (String × ℝ)
  | [] => [x]
  | y :: ys => if x.2 > y.2 then x :: y :: ys else y :: insertDesc x ys

/-- `sorted(items, key=lambda item: item[1], reverse=True)` (stable). -/
noncomputable def sortDesc (l : List (String × ℝ)) : List (String × ℝ) :=
  l.foldl (fun acc x => insertDesc x acc) []

/-- Inner loop of `_solve_greedy`: first opportunity in `choices` with
remaining capacity, together with the updated `remaining` dict. -/
def greedyStep (remaining : List (String × ℕ)) :
    List (String × ℝ) → Option String × List (String × ℕ)
  | [] => (none, remaining)
  | (opp_id, _) :: rest =>
      if alistGetD remaining opp_id 0 > 0 then
        (some opp_id, alistSet remaining opp_id (alistGetD remaining opp_id 0 - 1))
      else greedyStep remaining rest

/-- The `for user in users` loop of `_solve_greedy`, accumulating
assignments. -/
noncomputable def greedyAux (score_matrix : List (String × List (String × ℝ))) :
    List User → List (String × ℕ) → List (String × String) → List (String × String)
  | [], _, acc => acc
  | u :: rest, remaining, acc =>
      let choices := sortDesc (alistGetD score_matrix u.id [])
      match greedyStep remaining choices with
      | (none, rem) => greedyAux score_matrix rest rem acc
      | (some oid, rem) => greedyAux score_matrix rest rem (acc ++ [(u.id, oid)])

/-- `solver._solve_greedy`. -/
noncomputable def solve_greedy (users : List User)
    (score_matrix : List (String × List (String × ℝ)))
    (capacities : List (String × ℕ)) : List (String × String) × List String :=
  let assignments := greedyAux score_matrix users (alistOf capacities) []
  (assignments,
   (users.filter (fun u => !(assignments.any (fun a => a.1 = u.id)))).map User.id)

/-- `score_matrix.get(user.id, {}).get(opp.id)`. -/
def scoreAt (score_matrix : List (String × List (String × ℝ)))
    (u : User) (o : Opportunity) : Option ℝ :=
  alistGet (alistGetD score_matrix u.id []) o.id

/-- `max(0, capacities.get(opp.id, 0))` (trivial for ℕ capacities). -/
def capAt (capacities : List (String × ℕ)) (o : Opportunity) : ℕ :=
  alistGetD capacities o.id 0

/-- A feasible flow on the network `_solve_with_ortools` builds: `f i j` is
the flow on the arc user `i` → opp `j`, `fus i` on user `i` → sink, `fos j`
on opp `j` → sink. OR-Tools is an external black box; an `OPTIMAL` result is
in particular feasible, which is all the capacity claim needs. Conservation
and capacities are stated exactly for the arcs the source creates: user→opp
arcs exist only for pairs present in the score matrix (capacity 1), the
opp→sink arc is omitted when the capacity is 0. -/
structure FeasibleFlow (users : List User) (opps : List Opportunity)
    (score_matrix : List (String × List (String × ℝ)))
    (capacities : List (String × ℕ))
    (f : ℕ → ℕ → ℕ) (fus fos : ℕ → ℕ) : Prop where
  arc_cap : ∀ i j, f i j ≤ 1
  no_arc : ∀ i j, (∀ u o, users[i]? = some u → opps[j]? = some o →
    scoreAt score_matrix u o = none) → f i j = 0
  user_conserve : ∀ i, i < users.length →
    ((List.range opps.length).map (fun j => f i j)).sum + fus i ≤ 1
  opp_conserve : ∀ j, j < opps.length →
    ((List.range users.length).map (fun i => f i j)).sum = fos j
  opp_cap : ∀ j o, opps[j]? = some o → fos j ≤ capAt capacities o

/-- The arc scan of the extraction loop: the first opp arc out of user `i`
carrying non-zero flow (arcs were created in ascending opp order). -/
def pickOpp (f : ℕ → ℕ → ℕ) (numOpps i : ℕ) : Option ℕ :=
  (List.range numOpps).find? (fun j => 0 < f i j)

/-- The extraction loop at the end of `_solve_with_ortools` (lines 216-236):
one assignment per user with positive flow into an opp node, then the
unassigned users in input order. -/
def extract_ortools (users : List User) (opps : List Opportunity)
    (f : ℕ → ℕ → ℕ) : List (String × String) × List String :=
  let assignments := (List.range users.length).filterMap (fun i =>
    match users[i]?, pickOpp f opps.length i with
    | some u, some j =>
        match opps[j]? with
        | some o => some (u.id, o.id)
        | none => none
    | _, _ => none)
  (assignments,
   (users.filter (fun u => !(assignments.any (fun a => a.1 = u.id)))).map User.id)

/-- Which solver `solve_assignment` ends up on: the OR-Tools min-cost-flow
path (carrying the flow the external solver returned) or the greedy
fallback. The NetworkX middle fallback builds the same network and is not
separately modelled. -/
inductive SolverPath where
  | ortools (f : ℕ → ℕ → ℕ) (fus fos : ℕ → ℕ) : SolverPath
  | greedy : SolverPath

/-- `solver.solve_assignment`, resolved to whichever path the environment
selects. -/
noncomputable def solve_assignment (path : SolverPath) (users : List User)
    (opps : List Opportunity) (score_matrix : List (String × List (String × ℝ)))
    (capacities : List (String × ℕ)) : List (String × String) × List String :=
  match path with
  | SolverPath.ortools f _ _ => extract_ortools users opps f
  | SolverPath.greedy => solve_greedy users score_matrix capacities

/-- A solver path is well-formed when the flow it carries is feasible for
the constructed network (trivially true of the greedy fallback). -/
def PathOK (path : SolverPath) (users : List User) (opps : List Opportunity)
    (score_matrix : List (String × List (String × ℝ)))
    (capacities : List (String × ℕ)) : Prop :=
  match path with
  | SolverPath.ortools f fus fos =>
      FeasibleFlow users opps score_matrix capacities f fus fos
  | SolverPath.greedy => True

/-- Number of assignment pairs targeting opportunity id `oid`. -/
def countAssign (assignments : List (String × String)) (oid : String) : ℕ :=
  (assignments.filter (fun a => a.2 = oid)).length

/-! ## Route handlers (`app/api/routes_events.py`, `app/api/routes_feedback.py`) -/

/-- `models.RSVPResponse` payload. -/
structure RSVPResponse where
  event_id : String
  status : String
  spots_left : ℤ

/-- The `Literal["CONFIRMED", "FULL", "WAITLISTED"]` annotation on
`RSVPResponse.status` in `models.py`. -/
def allowedRSVPStatuses : List String := ["CONFIRMED", "FULL", "WAITLISTED"]

/-- FastAPI validates the handler's return value against the declared
`response_model`; a status outside the `Literal` raises a response
validation error instead of producing a response. -/
def mkRSVPResponse (event_id status : String) (spots_left : ℤ) :
    Except String RSVPResponse :=
  if status ∈ allowedRSVPStatuses then
    Except.ok { event_id := event_id, status := status, spots_left := spots_left }
  else Except.error ("ResponseValidationError: status " ++ status)

/-- `routes_events.rsvp`: the POST `/events/{event_id}/rsvp` handler. -/
noncomputable def rsvpRoute (settings : Settings) (s : StateStore)
    (event_id user_id : String) (now : ℝ) : StateStore × Except String RSVPResponse :=
  match alistGet s.opps event_id with
  | none => (s, Except.error "404: Event not found")
  | some opp =>
      if (alistGet s.users user_id).isNone then
        (s, Except.error "404: User not found")
      else
        let s := { s with rsvps := setIfMissing s.rsvps event_id [] }
        let rsvp_set := alistGetD s.rsvps event_id []
        if user_id ∈ rsvp_set then
          let spots_left := (opp.capacity : ℤ) - rsvp_set.length
          (s, mkRSVPResponse event_id "ACCEPTED" (max 0 spots_left))
        else
          let spots_left := (opp.capacity : ℤ) - rsvp_set.length
          if spots_left ≤ 0 then (s, mkRSVPResponse event_id "FULL" 0)
          else
            let s := { s with rsvps := alistSet s.rsvps event_id (rsvp_set ++ [user_id]) }
            let spots_left := (opp.capacity : ℤ) - (rsvp_set.length + 1)
            let s := recordFeedback settings s ⟨user_id, event_id, "accepted"⟩ now
            (s, mkRSVPResponse event_id "ACCEPTED" (max 0 spots_left))

/-- `models.FeedbackResponse` payload. -/
structure FeedbackResponse where
  opp_id : String
  demand : ℝ
  shown : ℕ
  total_interactions : ℕ

/-- `routes_feedback.feedback`: the POST `/feedback` handler. An unknown
`opp_id` is rejected with 404 before any mutation. On the success path the
handler reads `store.demand_window`, an attribute `StateStore` never
defines, so after recording it raises `AttributeError`. -/
noncomputable def feedbackRoute (settings : Settings) (s : StateStore)
    (req : FeedbackEvent) (now : ℝ) : StateStore × Except String FeedbackResponse :=
  if (alistGet s.opps req.opp_id).isNone then
    (s, Except.error "404: Opportunity not found")
  else
    let s := recordFeedback settings s req now
    (s, Except.error "AttributeError: 'StateStore' object has no attribute 'demand_window'")

/-! ## General lemmas about the dict model -/

theorem alistGet_eq_none_iff (m : List (String × α)) (k : String) :
    alistGet m k = none ↔ k ∉ m.map Prod.fst := by
  induction m with
  | nil => simp [alistGet]
  | cons hd tl ih =>
      by_cases h : hd.1 = k
      · simp [alistGet, h]
      · simp [alistGet, h, ih, Ne.symm h]

theorem alistSet_eq_append (m : List (String × α)) (k : String) (v : α)
    (h : alistGet m k = none) : alistSet m k v = m ++ [(k, v)] := by
  induction m with
  | nil => simp [alistSet]
  | cons hd tl ih =>
      by_cases hh : hd.1 = k
      · simp [alistGet, hh] at h
      · simp [alistGet, hh] at h
        simp [alistSet, hh, ih h]

theorem alistOf_go_eq (m : List (String × α)) (h : (m.map Prod.fst).Nodup) :
    ∀ acc : List (String × α),
      (∀ k ∈ m.map Prod.fst, alistGet acc k = none) →
      m.foldl (fun d kv => alistSet d kv.1 kv.2) acc = acc ++ m := by
  induction m with
  | nil => intro acc _; simp
  | cons hd tl ih =>
      intro acc hacc
      have hhd : alistGet acc hd.1 = none := hacc hd.1 (by simp)
      have hcons : (hd.1 :: tl.map Prod.fst).Nodup := by simpa using h
      have hm : hd.1 ∉ tl.map Prod.fst := (List.nodup_cons.mp hcons).1
      have htl : (tl.map Prod.fst).Nodup := (List.nodup_cons.mp hcons).2
      rw [List.foldl_cons, alistSet_eq_append acc hd.1 hd.2 hhd,
        ih htl (acc ++ [(hd.1, hd.2)]) ?_]
      · simp
      · intro k hk
        rw [alistGet_eq_none_iff]
        simp only [List.map_append, List.mem_append]
        rintro (hin | hin)
        · have hn := hacc k (by simp [hk])
          rw [alistGet_eq_none_iff] at hn
          exact hn hin
        · simp at hin
          exact hm (hin ▸ hk)

theorem alistOf_eq_self (m : List (String × α)) (h : (m.map Prod.fst).Nodup) :
    alistOf m = m := by
  simpa [alistOf] using alistOf_go_eq m h [] (by intro k _; simp [alistGet])

/-! ## C7: pulse is strictly increasing in net demand at fixed liquidity -/

theorem sigmoid_strictMono {x y : ℝ} (h : x < y) : sigmoid x < sigmoid y := by
  unfold sigmoid
  have hexp : Real.exp (-y) < Real.exp (-x) := Real.exp_lt_exp.mpr (by linarith)
  have hy : (0 : ℝ) < 1 + Real.exp (-y) := by positivity
  exact div_lt_div_of_pos_left (by norm_num) hy (by linarith)

/-- C7: for every fixed liquidity `L > 0` and net demands `d1 < d2`,
`pulse_from_demand d1 L < pulse_from_demand d2 L`: at fixed liquidity the
pulse is strictly increasing in net demand. -/
theorem pulse_from_demand_strictMono (L d1 d2 : ℝ) (hL : 0 < L) (h : d1 < d2) :
    pulse_from_demand d1 L < pulse_from_demand d2 L := by
  unfold pulse_from_demand
  rw [if_neg (not_le.mpr hL), if_neg (not_le.mpr hL)]
  have hs : sigmoid (d1 / L) < sigmoid (d2 / L) :=
    sigmoid_strictMono (by exact div_lt_div_of_pos_right h hL)
  linarith

/-- Witness for C7 at liquidity 1 and demands 0 < 1. -/
theorem pulse_from_demand_strictMono_witness :
    pulse_from_demand 0 1 < pulse_from_demand 1 1 :=
  pulse_from_demand_strictMono 1 0 1 (by norm_num) (by norm_num)

/-! ## C9: Jaccard symmetry and self-similarity -/

/-- Counterexample to C9 as stated: the tag list `[""]` is non-empty, yet
`interest_jaccard [""] [""] ≠ 1` (the source drops empty tags, leaving two
empty sets, and returns 0). -/
theorem interest_jaccard_self_counterexample :
    ([""] : List String) ≠ [] ∧ interest_jaccard [""] [""] ≠ 1 := by
  constructor
  · simp
  · have hset : tagSet [""] = ∅ := by decide
    rw [interest_jaccard, if_pos ⟨hset, hset⟩]
    norm_num

/-- C9 (amended): `interest_jaccard` is symmetric for all tag lists, and
`interest_jaccard A A = 1` for every tag list `A` containing at least one
non-empty tag. -/
theorem interest_jaccard_symm_self :
    (∀ A B : List String, interest_jaccard A B = interest_jaccard B A) ∧
    (∀ A : List String, (∃ t ∈ A, t ≠ "") → interest_jaccard A A = 1) := by
  constructor
  · intro A B
    unfold interest_jaccard
    rw [Finset.inter_comm, Finset.union_comm]
    exact if_congr and_comm rfl rfl
  · intro A hA
    have hne : tagSet A ≠ ∅ := by
      obtain ⟨t, ht, htne⟩ := hA
      have : strLower t ∈ tagSet A := by
        simp [tagSet, List.mem_filter]
        exact ⟨t, ⟨ht, by simpa using htne⟩, rfl⟩
      intro h
      rw [h] at this
      simp at this
    unfold interest_jaccard
    rw [if_neg (by simp [hne]), Finset.union_self, if_neg hne, Finset.inter_self]
    have hcard : ((tagSet A).card : ℝ) ≠ 0 := by
      simpa [Finset.card_eq_zero] using hne
    exact div_self hcard

/-- Witness for the amended C9 at `A = ["music"]`. -/
theorem interest_jaccard_symm_self_witness :
    (∃ t ∈ (["music"] : List String), t ≠ "") ∧
    interest_jaccard ["music"] ["music"] = 1 :=
  ⟨⟨"music", by simp⟩, interest_jaccard_symm_self.2 ["music"] ⟨"music", by simp⟩⟩

/-! ## C2: `load_model` does not validate `feature_order` -/

/-- Counterexample to C2 as stated: an artifact whose `feature_order` is
`["goal_match"]` (not the fixed eight-element list) is loaded verbatim; the
result is not the zero-weight default model. -/
theorem load_model_mismatch_counterexample :
    (["goal_match"] : List String) ≠ FEATURE_ORDER ∧
    load_model (some ⟨some ["goal_match"], some [2.0], some 1.0⟩) ≠ default_model := by
  constructor
  · decide
  · intro h
    have hb := congrArg LogisticModel.bias h
    simp [load_model, orDefault, default_model] at hb
    norm_num at hb

/-- C2 (amended): `load_model` returns the zero-weight default only when the
artifact file is missing; a present artifact's non-empty `feature_order` and
`weights` are used verbatim, with no validation against `FEATURE_ORDER`. -/
theorem load_model_no_validation :
    load_model none = default_model ∧
    ∀ (fo : List String) (w : List ℝ) (b : ℝ), fo ≠ [] → w ≠ [] →
      load_model (some ⟨some fo, some w, some b⟩) =
        { feature_order := fo, weights := w, bias := b } := by
  refine ⟨rfl, ?_⟩
  intro fo w b hfo hw
  match fo, hfo with
  | fo0 :: foRest, _ =>
    match w, hw with
    | w0 :: wRest, _ => simp [load_model, orDefault]

/-- Witness for the amended C2 at a concrete mismatched artifact. -/
theorem load_model_no_validation_witness :
    (["interest"] : List String) ≠ [] ∧ ([5.0] : List ℝ) ≠ [] ∧
    load_model (some ⟨some ["interest"], some [5.0], some (1.0 : ℝ)⟩) =
      { feature_order := ["interest"], weights := [5.0], bias := (1.0 : ℝ) } :=
  ⟨by simp, by simp,
   load_model_no_validation.2 ["interest"] [5.0] 1.0 (by simp) (by simp)⟩

/-! ## C6: decayed demand accumulator -/

theorem setIfMissing_present (m : List (String × α)) (k : String) (v' : α)
    (h : alistGet m k = some v') (v : α) : setIfMissing m k v = m := by
  simp [setIfMissing, h]

/-- C6: with decay constant τ > 0, recording an accepted, clicked or
declined event turns the stored net demand `net` into
`net · exp(−(now − last_ts) / (τ · 3600)) + δ` (δ = +1.0, +0.2, −0.5
respectively) and stamps `last_demand_ts` with `now`; any other event leaves
both untouched. -/
theorem recordFeedback_demand_update (settings : Settings)
    (hτ : 0 < settings.demand_decay_tau_hours) :
    (∀ (s : StateStore) (e : FeedbackEvent) (now net ts : ℝ),
      e.opp_id ≠ "" →
      e.event ∈ ["accepted", "clicked", "declined"] →
      alistGet s.net_demand e.opp_id = some net →
      alistGet s.last_demand_ts e.opp_id = some ts →
      alistGet (recordFeedback settings s e now).net_demand e.opp_id =
        some (net *
          Real.exp (-((now - ts) / (settings.demand_decay_tau_hours * 3600.0))) +
          demandDelta e.event) ∧
      alistGet (recordFeedback settings s e now).last_demand_ts e.opp_id = some now) ∧
    (∀ (s : StateStore) (e : FeedbackEvent) (now : ℝ),
      e.event ∉ ["accepted", "clicked", "declined"] →
      (∃ net, alistGet s.net_demand e.opp_id = some net) →
      (∃ ts, alistGet s.last_demand_ts e.opp_id = some ts) →
      (recordFeedback settings s e now).net_demand = s.net_demand ∧
      (recordFeedback settings s e now).last_demand_ts = s.last_demand_ts) := by
  have hens : ∀ (s : StateStore) (k : String) (now net ts : ℝ),
      alistGet s.net_demand k = some net →
      alistGet s.last_demand_ts k = some ts →
      (ensureOppState s k now).net_demand = s.net_demand ∧
      (ensureOppState s k now).last_demand_ts = s.last_demand_ts := by
    intro s k now net ts hnet hts
    exact ⟨by simp [ensureOppState, setIfMissing_present _ _ _ hnet],
           by simp [ensureOppState, setIfMissing_present _ _ _ hts]⟩
  constructor
  · intro s e now net ts hopp hev hnet hts
    obtain ⟨h1, h2⟩ := hens s e.opp_id now net ts hnet hts
    have hδ : demandDelta e.event ≠ 0.0 := by
      rcases List.mem_cons.mp hev with h | hev
      · rw [demandDelta, h]; norm_num
      rcases List.mem_cons.mp hev with h | hev
      · rw [demandDelta, if_neg (by rw [h]; decide), if_neg (by rw [h]; decide),
          if_pos h]
        norm_num
      rcases List.mem_cons.mp hev with h | hev
      · rw [demandDelta, if_neg (by rw [h]; decide), if_pos h]
        norm_num
      · exact absurd hev (by simp)
    have hevne : e.event ≠ "" := by
      rcases List.mem_cons.mp hev with h | hev
      · rw [h]; decide
      rcases List.mem_cons.mp hev with h | hev
      · rw [h]; decide
      rcases List.mem_cons.mp hev with h | hev
      · rw [h]; decide
      · exact absurd hev (by simp)
    rw [recordFeedback, if_neg (by simp [hopp, hevne])]
    simp only [h1, h2, if_pos hδ, alistGet_set_self, alistGetD, hnet, hts,
      Option.getD_some, decayedNet, if_pos hτ]
    constructor <;> trivial
  · intro s e now hev hnet0 hts0
    obtain ⟨net, hnet⟩ := hnet0
    obtain ⟨ts, hts⟩ := hts0
    by_cases hearly : e.opp_id = "" ∨ e.event = ""
    · rw [recordFeedback, if_pos hearly]
      exact ⟨rfl, rfl⟩
    · have hacc : e.event ≠ "accepted" := fun h => hev (by simp [h])
      have hdec : e.event ≠ "declined" := fun h => hev (by simp [h])
      have hclk : e.event ≠ "clicked" := fun h => hev (by simp [h])
      have hδ : ¬ (demandDelta e.event ≠ 0.0) := by
        rw [demandDelta, if_neg hacc, if_neg hdec, if_neg hclk]
        norm_num
      obtain ⟨h1, h2⟩ := hens s e.opp_id now net ts hnet hts
      rw [recordFeedback, if_neg hearly]
      simp only [h1, h2, if_neg hδ]
      constructor <;> trivial

/-- Witness for C6: default settings, one opportunity with zero stored
demand, an accepted event at the stored timestamp, and a shown event. -/
theorem recordFeedback_demand_update_witness :
    (0 : ℝ) < defaultSettings.demand_decay_tau_hours ∧
    (let s : StateStore :=
      { emptyStore with net_demand := [("o1", 0.0)], last_demand_ts := [("o1", 7.0)] }
     alistGet (recordFeedback defaultSettings s ⟨"u1", "o1", "accepted"⟩ 7.0).net_demand "o1" =
       some (0.0 *
         Real.exp (-((7.0 - 7.0) / (defaultSettings.demand_decay_tau_hours * 3600.0))) +
         demandDelta "accepted") ∧
     alistGet (recordFeedback defaultSettings s ⟨"u1", "o1", "accepted"⟩ 7.0).last_demand_ts "o1" =
       some 7.0 ∧
     (recordFeedback defaultSettings s ⟨"u1", "o1", "shown"⟩ 9.0).net_demand = s.net_demand ∧
     (recordFeedback defaultSettings s ⟨"u1", "o1", "shown"⟩ 9.0).last_demand_ts =
       s.last_demand_ts) := by
  have hτ : (0 : ℝ) < defaultSettings.demand_decay_tau_hours := by
    norm_num [defaultSettings]
  refine ⟨hτ, ?_, ?_, ?_⟩
  · exact ((recordFeedback_demand_update defaultSettings hτ).1 _
      ⟨"u1", "o1", "accepted"⟩ 7.0 0.0 7.0 (by simp) (by simp)
      (by simp [alistGet]) (by simp [alistGet])).1
  · exact ((recordFeedback_demand_update defaultSettings hτ).1 _
      ⟨"u1", "o1", "accepted"⟩ 7.0 0.0 7.0 (by simp) (by simp)
      (by simp [alistGet]) (by simp [alistGet])).2
  · exact (recordFeedback_demand_update defaultSettings hτ).2 _
      ⟨"u1", "o1", "shown"⟩ 9.0 (by simp) ⟨0.0, by simp [alistGet]⟩
      ⟨7.0, by simp [alistGet]⟩

/-! ## C8: feedback on an unknown opportunity is rejected before recording -/

/-- C8: a feedback event naming an opportunity id absent from the store is
rejected with 404 by the feedback operation; the state — in particular the
interaction log, the shown windows and the net demand — is untouched. -/
theorem feedbackRoute_unknown_opp (settings : Settings) (s : StateStore)
    (req : FeedbackEvent) (now : ℝ)
    (h : req.opp_id ∉ s.opps.map Prod.fst) :
    feedbackRoute settings s req now = (s, Except.error "404: Opportunity not found") ∧
    (feedbackRoute settings s req now).1.interactions = s.interactions ∧
    (feedbackRoute settings s req now).1.shown_window = s.shown_window ∧
    (feedbackRoute settings s req now).1.net_demand = s.net_demand := by
  have hn : alistGet s.opps req.opp_id = none := (alistGet_eq_none_iff _ _).mpr h
  have hroute : feedbackRoute settings s req now =
      (s, Except.error "404: Opportunity not found") := by
    rw [feedbackRoute, if_pos (by simp [hn])]
  exact ⟨hroute, by rw [hroute], by rw [hroute], by rw [hroute]⟩

/-- A concrete opportunity used by several witnesses. -/
noncomputable def oppEx : Opportunity :=
  { id := "o1", title := "Open Mic", tags := ["music"], category := "social"
    time_bucket := "weeknights", lat := 0, lng := 0, capacity := 1
    group_size := "small", intensity := "med", beginner_friendly := true }

/-- A concrete user used by several witnesses. -/
noncomputable def userEx : User :=
  { id := "u1", interest_tags := ["music"], lat := 0, lng := 0
    max_travel_mins := 30, availability := ["weeknights"], group_pref := "small"
    intensity_pref := "med", goal := none, cohort := none }

/-- Witness for C8: a store holding only `o1` rejects feedback on `o2`. -/
theorem feedbackRoute_unknown_opp_witness :
    (let s := { emptyStore with opps := [("o1", oppEx)] }
     "o2" ∉ s.opps.map Prod.fst ∧
     feedbackRoute defaultSettings s ⟨"u1", "o2", "clicked"⟩ 0 =
       (s, Except.error "404: Opportunity not found")) := by
  refine ⟨by simp, ?_⟩
  exact (feedbackRoute_unknown_opp defaultSettings _ ⟨"u1", "o2", "clicked"⟩ 0
    (by simp)).1

/-! ## C10: repeated RSVP -/

/-- C10 (code evaluated at the failing input): for a user already in the
event's RSVP set, the handler leaves the RSVP set, the interaction log and
the net demand unchanged, but the status it constructs is `"ACCEPTED"`,
which the declared `RSVPResponse` literal (`CONFIRMED`/`FULL`/`WAITLISTED`)
rejects — the call ends in a response-validation error instead of the
idempotent ACCEPTED response the claim describes. -/
theorem rsvp_repeat_validation_error :
    (let s := { emptyStore with
                users := [("u1", userEx)]
                opps := [("o1", oppEx)]
                rsvps := [("o1", ["u1"])] }
     (rsvpRoute defaultSettings s "o1" "u1" 0).2 =
       Except.error "ResponseValidationError: status ACCEPTED" ∧
     "ACCEPTED" ∉ allowedRSVPStatuses ∧
     (rsvpRoute defaultSettings s "o1" "u1" 0).1.rsvps = s.rsvps ∧
     (rsvpRoute defaultSettings s "o1" "u1" 0).1.interactions = s.interactions ∧
     (rsvpRoute defaultSettings s "o1" "u1" 0).1.net_demand = s.net_demand) := by
  have hroute : rsvpRoute defaultSettings
      { emptyStore with
        users := [("u1", userEx)]
        opps := [("o1", oppEx)]
        rsvps := [("o1", ["u1"])] } "o1" "u1" 0 =
      ({ emptyStore with
         users := [("u1", userEx)]
         opps := [("o1", oppEx)]
         rsvps := [("o1", ["u1"])] },
       Except.error "ResponseValidationError: status ACCEPTED") := by
    rw [rsvpRoute]
    simp [alistGet, setIfMissing, alistGetD, mkRSVPResponse, allowedRSVPStatuses,
      emptyStore]
  refine ⟨by rw [hroute], by decide, by rw [hroute], by rw [hroute], by rw [hroute]⟩

/-! ## C4: the RSVP set never exceeds capacity -/

theorem alistGet_mem (m : List (String × α)) (k : String) (v : α)
    (h : alistGet m k = some v) : (k, v) ∈ m := by
  induction m with
  | nil => simp [alistGet] at h
  | cons hd tl ih =>
      by_cases hh : hd.1 = k
      · rw [alistGet, if_pos hh] at h
        have heq : (k, v) = hd := by
          obtain ⟨k0, v0⟩ := hd
          simp_all
        rw [heq]
        exact List.mem_cons_self _ _
      · rw [alistGet, if_neg hh] at h
        exact List.mem_cons_of_mem _ (ih h)

theorem alistGet_unique (m : List (String × α)) (k : String) (v : α)
    (hnodup : (m.map Prod.fst).Nodup) (h : alistGet m k = some v) :
    ∀ p ∈ m, p.1 = k → p.2 = v := by
  induction m with
  | nil => simp
  | cons hd tl ih =>
      intro p hp hpk
      have hcons : hd.1 ∉ tl.map Prod.fst ∧ (tl.map Prod.fst).Nodup := by
        constructor
        · exact (List.nodup_cons.mp (by simpa using hnodup)).1
        · exact (List.nodup_cons.mp (by simpa using hnodup)).2
      rcases List.mem_cons.mp hp with hph | hpt
      · subst hph
        rw [alistGet, if_pos hpk] at h
        exact Option.some.injEq _ _ |>.mp h
      · by_cases hh : hd.1 = k
        · exfalso
          apply hcons.1
          rw [hh, ← hpk]
          exact List.mem_map_of_mem Prod.fst hpt
        · rw [alistGet, if_neg hh] at h
          exact ih hcons.2 h p hpt hpk

theorem mem_setIfMissing (m : List (String × α)) (k : String) (v : α)
    (p : String × α) (h : p ∈ setIfMissing m k v) : p ∈ m ∨ p = (k, v) := by
  rw [setIfMissing] at h
  cases hg : alistGet m k with
  | some w => rw [hg] at h; exact Or.inl h
  | none =>
      rw [hg, alistSet_eq_append m k v hg] at h
      rcases List.mem_append.mp h with h1 | h1
      · exact Or.inl h1
      · right; simpa using h1

theorem alistGetD_setIfMissing_same (m : List (String × α)) (k k' : String)
    (d : α) : alistGetD (setIfMissing m k d) k' d = alistGetD m k' d := by
  rw [setIfMissing]
  cases hg : alistGet m k with
  | some w => rfl
  | none =>
      by_cases hk : k = k'
      · subst hk
        rw [alistGetD, alistGet_set_self, alistGetD, hg]
        rfl
      · rw [alistGetD, alistGet_set_other m k k' d hk, alistGetD]

/-- Invariant (i) of the spec: every opportunity's RSVP set is within its
capacity. -/
def RSVPInv (s : StateStore) : Prop :=
  ∀ p ∈ s.opps, (alistGetD s.rsvps p.1 []).length ≤ p.2.capacity

theorem rsvpInv_of_rsvps_eq (s s' : StateStore) (hopps : s'.opps = s.opps)
    (hrs : ∀ k, alistGetD s'.rsvps k [] = alistGetD s.rsvps k [])
    (h : RSVPInv s) : RSVPInv s' := by
  intro p hp
  rw [hrs p.1]
  exact h p (hopps ▸ hp)

theorem rsvpInv_ensure (s : StateStore) (k : String) (now : ℝ)
    (h : RSVPInv s) : RSVPInv (ensureOppState s k now) := by
  refine rsvpInv_of_rsvps_eq s (ensureOppState s k now) rfl ?_ h
  intro k'
  exact alistGetD_setIfMissing_same s.rsvps k k' []

theorem recordFeedback_opps (settings : Settings) (s : StateStore)
    (e : FeedbackEvent) (now : ℝ) :
    (recordFeedback settings s e now).opps = s.opps := by
  rw [recordFeedback]
  by_cases h : e.opp_id = "" ∨ e.event = ""
  · rw [if_pos h]
  · rw [if_neg h]
    rfl

theorem recordFeedback_rsvps (settings : Settings) (s : StateStore)
    (e : FeedbackEvent) (now : ℝ) :
    ∀ k, alistGetD (recordFeedback settings s e now).rsvps k [] =
      alistGetD s.rsvps k [] := by
  intro k
  rw [recordFeedback]
  by_cases h : e.opp_id = "" ∨ e.event = ""
  · rw [if_pos h]
  · rw [if_neg h]
    exact alistGetD_setIfMissing_same s.rsvps e.opp_id k []

theorem rsvpInv_recordFeedback (settings : Settings) (s : StateStore)
    (e : FeedbackEvent) (now : ℝ) (h : RSVPInv s) :
    RSVPInv (recordFeedback settings s e now) :=
  rsvpInv_of_rsvps_eq s _ (recordFeedback_opps settings s e now)
    (recordFeedback_rsvps settings s e now) h

theorem rsvpInv_loadFixture (payload : FixturePayload) (now : ℝ) :
    RSVPInv (loadFixture payload now) := by
  have hnil : ∀ (ks : List String) (s : StateStore),
      (∀ p ∈ s.rsvps, p.2 = ([] : List String)) →
      ∀ p ∈ (ks.foldl (fun s k => ensureOppState s k now) s).rsvps, p.2 = [] := by
    intro ks
    induction ks with
    | nil => intro s hs; simpa using hs
    | cons k kt ih =>
        intro s hs
        rw [List.foldl_cons]
        apply ih
        intro p hp
        rcases mem_setIfMissing s.rsvps k [] p hp with h1 | h1
        · exact hs p h1
        · rw [h1]
  have hall : ∀ q ∈ (loadFixture payload now).rsvps, q.2 = ([] : List String) := by
    rw [loadFixture]
    exact hnil _ _ (by intro q hq; simp [emptyStore] at hq)
  intro p hp
  cases hg : alistGet (loadFixture payload now).rsvps p.1 with
  | none => simp [alistGetD, hg]
  | some v =>
      have hv : v = [] := hall (p.1, v) (alistGet_mem _ _ _ hg)
      simp [alistGetD, hg, hv]

theorem rsvpInv_rsvpRoute (settings : Settings) (s : StateStore)
    (eid uid : String) (now : ℝ) (hnodup : (s.opps.map Prod.fst).Nodup)
    (h : RSVPInv s) : RSVPInv (rsvpRoute settings s eid uid now).1 := by
  rw [rsvpRoute]
  cases hopp : alistGet s.opps eid with
  | none => exact h
  | some opp =>
      by_cases huser : (alistGet s.users uid).isNone
      · simp only [if_pos huser]
        exact h
      · simp only [if_neg huser]
        have hs' : RSVPInv { s with rsvps := setIfMissing s.rsvps eid [] } := by
          refine rsvpInv_of_rsvps_eq s
            { s with rsvps := setIfMissing s.rsvps eid [] } rfl ?_ h
          intro k'
          exact alistGetD_setIfMissing_same s.rsvps eid k' []
        by_cases hmem :
            uid ∈ alistGetD (setIfMissing s.rsvps eid []) eid []
        · simp only [if_pos hmem]
          exact hs'
        · simp only [if_neg hmem]
          by_cases hfull : (opp.capacity : ℤ) -
              (alistGetD (setIfMissing s.rsvps eid []) eid []).length ≤ 0
          · simp only [if_pos hfull]
            exact hs'
          · simp only [if_neg hfull]
            apply rsvpInv_recordFeedback
            intro p hp
            by_cases hpk : p.1 = eid
            · rw [hpk]
              rw [alistGetD, alistGet_set_self]
              have hp2 : p.2 = opp := alistGet_unique s.opps eid opp hnodup hopp p hp hpk
              rw [alistGetD_setIfMissing_same] at hfull
              simp only [Option.getD_some, List.length_append, List.length_singleton]
              rw [alistGetD_setIfMissing_same, hp2]
              omega
            · rw [alistGetD, alistGet_set_other _ _ _ _ (fun hh => hpk hh.symm)]
              rw [← alistGetD]
              rw [alistGetD_setIfMissing_same]
              exact h p hp

/-- C4: in every state reachable through reset, fixture load, rsvp and
feedback, each opportunity's RSVP set stays within its capacity, and an RSVP
against an event with no spots left returns `FULL` with `spots_left = 0`
without inserting the user. -/
theorem rsvp_capacity_invariant :
    RSVPInv emptyStore ∧
    (∀ (payload : FixturePayload) (now : ℝ), RSVPInv (loadFixture payload now)) ∧
    (∀ (settings : Settings) (s : StateStore) (e : FeedbackEvent) (now : ℝ),
      RSVPInv s → RSVPInv (recordFeedback settings s e now)) ∧
    (∀ (settings : Settings) (s : StateStore) (req : FeedbackEvent) (now : ℝ),
      RSVPInv s → RSVPInv (feedbackRoute settings s req now).1) ∧
    (∀ (settings : Settings) (s : StateStore) (eid uid : String) (now : ℝ),
      (s.opps.map Prod.fst).Nodup → RSVPInv s →
      RSVPInv (rsvpRoute settings s eid uid now).1) ∧
    (∀ (settings : Settings) (s : StateStore) (eid uid : String) (now : ℝ)
      (opp : Opportunity),
      alistGet s.opps eid = some opp →
      (alistGet s.users uid).isSome →
      uid ∉ alistGetD s.rsvps eid [] →
      (opp.capacity : ℤ) - (alistGetD s.rsvps eid []).length ≤ 0 →
      (rsvpRoute settings s eid uid now).2 =
        Except.ok { event_id := eid, status := "FULL", spots_left := 0 } ∧
      uid ∉ alistGetD (rsvpRoute settings s eid uid now).1.rsvps eid []) := by
  refine ⟨by intro p hp; simp [emptyStore] at hp, rsvpInv_loadFixture,
    rsvpInv_recordFeedback, ?_, rsvpInv_rsvpRoute, ?_⟩
  · intro settings s req now h
    rw [feedbackRoute]
    by_cases hu : (alistGet s.opps req.opp_id).isNone
    · rw [if_pos hu]
      exact h
    · rw [if_neg hu]
      exact rsvpInv_recordFeedback settings s req now h
  · intro settings s eid uid now opp hopp huser hmem hfull
    rw [rsvpRoute, hopp]
    have hmem' : uid ∉ alistGetD (setIfMissing s.rsvps eid []) eid [] := by
      rw [alistGetD_setIfMissing_same]
      exact hmem
    have hfull' : (opp.capacity : ℤ) -
        (alistGetD (setIfMissing s.rsvps eid []) eid []).length ≤ 0 := by
      rw [alistGetD_setIfMissing_same]
      exact hfull
    have husern : ¬ (alistGet s.users uid).isNone = true := by
      intro hcon
      rw [Option.isNone_iff_eq_none] at hcon
      rw [hcon] at huser
      simp at huser
    simp only [if_neg husern, if_neg hmem', if_pos hfull']
    refine ⟨?_, ?_⟩
    · rw [mkRSVPResponse, if_pos (by decide)]
    · exact hmem'

/-- Witness for C4: the FULL branch and the preservation steps at a concrete
saturated store (capacity-1 event already holding `u1`, second user `u2`). -/
theorem rsvp_capacity_invariant_witness :
    (let s : StateStore :=
      { emptyStore with
        users := [("u1", userEx), ("u2", userEx)]
        opps := [("o1", oppEx)]
        rsvps := [("o1", ["u1"])] }
     RSVPInv s ∧
     (rsvpRoute defaultSettings s "o1" "u2" 0).2 =
       Except.ok { event_id := "o1", status := "FULL", spots_left := 0 } ∧
     "u2" ∉ alistGetD (rsvpRoute defaultSettings s "o1" "u2" 0).1.rsvps "o1" [] ∧
     RSVPInv (rsvpRoute defaultSettings s "o1" "u2" 0).1) := by
  intro s
  have hinv : RSVPInv s := by
    intro p hp
    simp only [s, emptyStore] at hp
    simp at hp
    subst hp
    simp [s, alistGetD, alistGet, oppEx]
  have hopp : alistGet s.opps "o1" = some oppEx := by simp [s, alistGet]
  have hfull := rsvp_capacity_invariant.2.2.2.2.2 defaultSettings s "o1" "u2" 0
    oppEx hopp (by simp [s, alistGet]) (by simp [s, alistGetD, alistGet])
    (by simp [s, alistGetD, alistGet, oppEx])
  refine ⟨hinv, hfull.1, hfull.2, ?_⟩
  exact rsvp_capacity_invariant.2.2.2.2.1 defaultSettings s "o1" "u2" 0
    (by simp [s]) hinv

/-! ## C3: the solver respects capacities -/

theorem countAssign_cons (a : String × String) (l : List (String × String))
    (oid : String) :
    countAssign (a :: l) oid = (if a.2 = oid then 1 else 0) + countAssign l oid := by
  rw [countAssign, List.filter_cons]
  by_cases h : a.2 = oid
  · simp [h, countAssign, Nat.add_comm]
  · simp [h, countAssign]

theorem countAssign_append (l1 l2 : List (String × String)) (oid : String) :
    countAssign (l1 ++ l2) oid = countAssign l1 oid + countAssign l2 oid := by
  simp [countAssign, List.filter_append]

theorem greedyStep_cases (remaining : List (String × ℕ))
    (choices : List (String × ℝ)) :
    (greedyStep remaining choices = (none, remaining)) ∨
    (∃ oid, 0 < alistGetD remaining oid 0 ∧
      greedyStep remaining choices =
        (some oid, alistSet remaining oid (alistGetD remaining oid 0 - 1))) := by
  induction choices with
  | nil => exact Or.inl rfl
  | cons c rest ih =>
      rw [greedyStep]
      by_cases h : alistGetD remaining c.1 0 > 0
      · right
        exact ⟨c.1, h, by rw [if_pos h]⟩
      · rw [if_neg h]
        exact ih

theorem greedyAux_bound (sm : List (String × List (String × ℝ))) (oid : String) :
    ∀ (us : List User) (remaining : List (String × ℕ)) (acc : List (String × String)),
      countAssign (greedyAux sm us remaining acc) oid ≤
        countAssign acc oid + alistGetD remaining oid 0 := by
  intro us
  induction us with
  | nil => intro remaining acc; simp [greedyAux]
  | cons u rest ih =>
      intro remaining acc
      rcases greedyStep_cases remaining (sortDesc (alistGetD sm u.id [])) with
        hstep | ⟨oid', hpos, hstep⟩
      · rw [greedyAux, hstep]
        exact ih remaining acc
      · rw [greedyAux, hstep]
        refine le_trans (ih _ _) ?_
        have hsing : countAssign [(u.id, oid')] oid = if oid' = oid then 1 else 0 := by
          by_cases h : oid' = oid <;> simp [countAssign, h]
        rw [countAssign_append, hsing]
        by_cases hoo : oid' = oid
        · subst hoo
          rw [if_pos rfl, alistGetD, alistGet_set_self]
          simp only [Option.getD_some]
          omega
        · rw [if_neg hoo, alistGetD, alistGet_set_other _ _ _ _ hoo, ← alistGetD]
          omega

theorem solve_greedy_bound (users : List User)
    (sm : List (String × List (String × ℝ))) (caps : List (String × ℕ))
    (oid : String) (hnodup : (caps.map Prod.fst).Nodup) :
    countAssign (solve_greedy users sm caps).1 oid ≤ alistGetD caps oid 0 := by
  rw [solve_greedy]
  show countAssign (greedyAux sm users (alistOf caps) []) oid ≤ _
  rw [alistOf_eq_self caps hnodup]
  have := greedyAux_bound sm oid users caps []
  simpa [countAssign] using this

theorem get_index_unique (opps : List Opportunity)
    (hnodup : (opps.map Opportunity.id).Nodup) (j j0 : ℕ) (o o0 : Opportunity)
    (hj : opps[j]? = some o) (hj0 : opps[j0]? = some o0)
    (hid : o.id = o0.id) : j = j0 := by
  obtain ⟨hjl, hjg⟩ := List.getElem?_eq_some.mp hj
  obtain ⟨hj0l, hj0g⟩ := List.getElem?_eq_some.mp hj0
  have hjm : (opps.map Opportunity.id).get ⟨j, by simpa using hjl⟩ = o.id := by
    simp [List.get_eq_getElem, List.getElem_map, hjg]
  have hj0m : (opps.map Opportunity.id).get ⟨j0, by simpa using hj0l⟩ = o0.id := by
    simp [List.get_eq_getElem, List.getElem_map, hj0g]
  have := (List.Nodup.get_inj_iff hnodup).mp
    (hjm.trans (hid.trans hj0m.symm))
  simpa using congrArg Fin.val this

theorem pickOpp_spec (f : ℕ → ℕ → ℕ) (m i j : ℕ)
    (h : pickOpp f m i = some j) : 0 < f i j ∧ j < m := by
  constructor
  · have := List.find?_some h
    simpa using this
  · have := List.mem_of_find?_eq_some h
    simpa using this

theorem extract_count_le_sum (g : ℕ → Option (String × String)) (oid : String)
    (f : ℕ → ℕ → ℕ) (j0 : ℕ)
    (hg : ∀ i a, g i = some a → a.2 = oid → 1 ≤ f i j0) :
    ∀ is : List ℕ,
      countAssign (is.filterMap g) oid ≤ (is.map (fun i => f i j0)).sum := by
  intro is
  induction is with
  | nil => simp [countAssign]
  | cons i rest ih =>
      rw [List.filterMap_cons]
      cases hgi : g i with
      | none =>
          rw [List.map_cons, List.sum_cons]
          exact le_trans ih (by omega)
      | some a =>
          rw [countAssign_cons, List.map_cons, List.sum_cons]
          by_cases ha : a.2 = oid
          · have h1 : 1 ≤ f i j0 := hg i a hgi ha
            rw [if_pos ha]
            omega
          · rw [if_neg ha]
            omega

/-- C3: every assignment list produced by `solve_assignment` — through the
min-cost-flow extraction (for any feasible flow, in particular an OPTIMAL
one) or through the greedy fallback — contains at most `capacity(o)` pairs
for every opportunity `o`; an opportunity with capacity 0 therefore never
appears. -/
theorem solver_respects_capacity (path : SolverPath) (users : List User)
    (opps : List Opportunity) (sm : List (String × List (String × ℝ)))
    (caps : List (String × ℕ))
    (hpath : PathOK path users opps sm caps)
    (hcaps : (caps.map Prod.fst).Nodup)
    (hopps : (opps.map Opportunity.id).Nodup) :
    ∀ (j0 : ℕ) (o0 : Opportunity), opps[j0]? = some o0 →
      countAssign (solve_assignment path users opps sm caps).1 o0.id ≤
        alistGetD caps o0.id 0 := by
  intro j0 o0 hj0
  cases path with
  | greedy => exact solve_greedy_bound users sm caps o0.id hcaps
  | ortools f fus fos =>
      have hflow : FeasibleFlow users opps sm caps f fus fos := hpath
      rw [solve_assignment, extract_ortools]
      have hcount := extract_count_le_sum
        (fun i =>
          match users[i]?, pickOpp f opps.length i with
          | some u, some j =>
              match opps[j]? with
              | some o => some (u.id, o.id)
              | none => none
          | _, _ => none)
        o0.id f j0 ?_ (List.range users.length)
      · refine le_trans hcount ?_
        rw [hflow.opp_conserve j0 (List.getElem?_eq_some.mp hj0).1]
        exact hflow.opp_cap j0 o0 hj0
      · intro i a hga ha
        cases hu : users[i]? with
        | none => simp [hu] at hga
        | some u =>
            cases hp : pickOpp f opps.length i with
            | none => simp [hu, hp] at hga
            | some j =>
                cases ho : opps[j]? with
                | none => simp [hu, hp, ho] at hga
                | some o =>
                    have hai : a = (u.id, o.id) := by
                      have := hga
                      simp [hu, hp, ho] at this
                      exact this.symm
                    have hoid : o.id = o0.id := by rw [hai] at ha; exact ha
                    obtain ⟨hfpos, _⟩ := pickOpp_spec f opps.length i j hp
                    have hjj0 : j = j0 :=
                      get_index_unique opps hopps j j0 o o0 ho hj0 hoid
                    rw [← hjj0]
                    omega

/-- Witness for C3: one user, one capacity-1 opportunity, and the feasible
unit flow routing the user through the opportunity. -/
theorem solver_respects_capacity_witness :
    countAssign
      (solve_assignment
        (SolverPath.ortools
          (fun i j => if i = 0 ∧ j = 0 then 1 else 0) (fun _ => 0)
          (fun j => if j = 0 then 1 else 0))
        [userEx] [oppEx] [("u1", [("o1", (0.5 : ℝ))])] [("o1", 1)]).1 oppEx.id ≤
      alistGetD [("o1", 1)] oppEx.id 0 := by
  have hscore : scoreAt [("u1", [("o1", (0.5 : ℝ))])] userEx oppEx = some 0.5 := by
    simp [scoreAt, alistGetD, alistGet, userEx, oppEx]
  refine solver_respects_capacity _ _ _ _ _ ?_ (by simp) (by simp [oppEx]) 0 oppEx
    (by simp)
  refine ⟨?_, ?_, ?_, ?_, ?_⟩
  · intro i j
    by_cases h : i = 0 ∧ j = 0 <;> simp [h]
  · intro i j hno
    by_cases h : i = 0 ∧ j = 0
    · exfalso
      have := hno userEx oppEx (by simp [h.1]) (by simp [h.2])
      rw [hscore] at this
      exact Option.some_ne_none _ this
    · simp [h]
  · intro i hi
    have h0 : i = 0 := by
      simp at hi
      omega
    subst h0
    simp [List.length_singleton, List.range_succ]
  · intro j hj
    have h0 : j = 0 := by
      simp at hj
      omega
    subst h0
    simp [List.length_singleton, List.range_succ]
  · intro j o hj
    cases j with
    | zero =>
        have ho : oppEx = o := by simpa using hj
        simp [← ho, capAt, alistGetD, alistGet, oppEx]
    | succ n => simp at hj

/-! ## C5 and C1: the scoring loop -/

theorem feature_avail_eq (settings : Settings) (u : User) (o : Opportunity)
    (interactions : List Interaction) :
    (compute_feature_vector settings u o interactions).1.availability_ok =
      if availability_ok u o then 1.0 else 0.0 := rfl

theorem scorePair_skip (p : ScoreParams) (u : User) (o : Opportunity)
    (h : availability_ok u o = false) : scorePair p u o = Except.ok none := by
  have hf : (compute_feature_vector p.settings u o p.interactions).1.availability_ok
      = 0.0 := by
    rw [feature_avail_eq, h]
    simp
  simp only [scorePair]
  rw [hf, if_pos (by norm_num)]

theorem scorePair_crash (p : ScoreParams) (u : User) (o : Opportunity)
    (ha : availability_ok u o = true) (hn : isNewcomer u = true)
    (hb : o.beginner_friendly = true) :
    scorePair p u o =
      Except.error "AttributeError: 'Settings' object has no attribute 'newcomer_boost'" := by
  have hf : (compute_feature_vector p.settings u o p.interactions).1.availability_ok
      = 1.0 := by
    rw [feature_avail_eq, ha]
    simp
  simp only [scorePair]
  rw [hf, if_neg (by norm_num), hn, hb]
  simp

theorem scorePair_some_avail (p : ScoreParams) (u : User) (o : Opportunity)
    (sc : ℝ × ScoreExplanation) (h : scorePair p u o = Except.ok (some sc)) :
    availability_ok u o = true := by
  by_cases ha : availability_ok u o = true
  · exact ha
  · rw [scorePair_skip p u o (by simpa using ha)] at h
    simp at h

theorem alistGet_set_isSome (m : List (String × α)) (k k' : String) (v : α)
    (h : (alistGet (alistSet m k v) k').isSome) :
    k = k' ∨ (alistGet m k').isSome := by
  by_cases hk : k = k'
  · exact Or.inl hk
  · rw [alistGet_set_other m k k' v hk] at h
    exact Or.inr h

theorem scoreRowAux_sound (p : ScoreParams) (u : User) :
    ∀ (os : List Opportunity) (row : List (String × ℝ))
      (ex : List (String × ScoreExplanation)) row' ex',
      scoreRowAux p u os (row, ex) = Except.ok (row', ex') →
      (∀ oid, (alistGet row' oid).isSome →
        (alistGet row oid).isSome ∨
        ∃ o' ∈ os, o'.id = oid ∧ availability_ok u o' = true) ∧
      (∀ key, (alistGet ex' key).isSome →
        (alistGet ex key).isSome ∨
        ∃ o' ∈ os, key = u.id ++ "|" ++ o'.id ∧ availability_ok u o' = true) := by
  intro os
  induction os with
  | nil =>
      intro row ex row' ex' h
      rw [scoreRowAux] at h
      obtain ⟨h1, h2⟩ : row = row' ∧ ex = ex' := by
        have := Except.ok.injEq _ _ |>.mp h
        exact ⟨congrArg Prod.fst this, congrArg Prod.snd this⟩
      subst h1
      subst h2
      exact ⟨fun oid h => Or.inl h, fun key h => Or.inl h⟩
  | cons o os ih =>
      intro row ex row' ex' h
      rw [scoreRowAux] at h
      cases hsp : scorePair p u o with
      | error msg => rw [hsp] at h; simp at h
      | ok osc =>
          cases osc with
          | none =>
              rw [hsp] at h
              obtain ⟨h1, h2⟩ := ih row ex row' ex' h
              refine ⟨fun oid hx => ?_, fun key hx => ?_⟩
              · rcases h1 oid hx with hh | ⟨o', ho', rest⟩
                · exact Or.inl hh
                · exact Or.inr ⟨o', List.mem_cons_of_mem _ ho', rest⟩
              · rcases h2 key hx with hh | ⟨o', ho', rest⟩
                · exact Or.inl hh
                · exact Or.inr ⟨o', List.mem_cons_of_mem _ ho', rest⟩
          | some sc =>
              rw [hsp] at h
              have havail : availability_ok u o = true :=
                scorePair_some_avail p u o sc hsp
              obtain ⟨h1, h2⟩ := ih _ _ row' ex' h
              refine ⟨fun oid hx => ?_, fun key hx => ?_⟩
              · rcases h1 oid hx with hh | ⟨o', ho', rest⟩
                · rcases alistGet_set_isSome row o.id oid sc.1 hh with he | hs
                  · exact Or.inr ⟨o, List.mem_cons_self _ _, he, havail⟩
                  · exact Or.inl hs
                · exact Or.inr ⟨o', List.mem_cons_of_mem _ ho', rest⟩
              · rcases h2 key hx with hh | ⟨o', ho', rest⟩
                · rcases alistGet_set_isSome ex (u.id ++ "|" ++ o.id) key sc.2 hh with
                    he | hs
                  · exact Or.inr ⟨o, List.mem_cons_self _ _, he.symm, havail⟩
                  · exact Or.inl hs
                · exact Or.inr ⟨o', List.mem_cons_of_mem _ ho', rest⟩

/-- A score row only holds opportunities the user can actually attend. -/
def RowOK (opps : List Opportunity) (u : User) (row : List (String × ℝ)) : Prop :=
  ∀ oid, (alistGet row oid).isSome →
    ∃ o' ∈ opps, o'.id = oid ∧ availability_ok u o' = true

theorem buildAux_sound (p : ScoreParams) (opps : List Opportunity) :
    ∀ (us : List User) (sm : List (String × List (String × ℝ)))
      (ex : List (String × ScoreExplanation)) sm' ex',
      buildAux p opps us (sm, ex) = Except.ok (sm', ex') →
      (∀ uid row', alistGet sm' uid = some row' →
        alistGet sm uid = some row' ∨
        ∃ u' ∈ us, u'.id = uid ∧ RowOK opps u' row') ∧
      (∀ key, (alistGet ex' key).isSome →
        (alistGet ex key).isSome ∨
        ∃ u' ∈ us, ∃ o' ∈ opps,
          key = u'.id ++ "|" ++ o'.id ∧ availability_ok u' o' = true) := by
  intro us
  induction us with
  | nil =>
      intro sm ex sm' ex' h
      rw [buildAux] at h
      obtain ⟨h1, h2⟩ : sm = sm' ∧ ex = ex' := by
        have := Except.ok.injEq _ _ |>.mp h
        exact ⟨congrArg Prod.fst this, congrArg Prod.snd this⟩
      subst h1
      subst h2
      exact ⟨fun uid row' h => Or.inl h, fun key h => Or.inl h⟩
  | cons u us ih =>
      intro sm ex sm' ex' h
      rw [buildAux] at h
      cases hrow : scoreRowAux p u opps ([], ex) with
      | error msg => rw [hrow] at h; simp at h
      | ok pr =>
          obtain ⟨row, ex1⟩ := pr
          rw [hrow] at h
          obtain ⟨hr1, hr2⟩ := scoreRowAux_sound p u opps [] ex row ex1 hrow
          obtain ⟨h1, h2⟩ := ih _ _ sm' ex' h
          refine ⟨fun uid row' hx => ?_, fun key hx => ?_⟩
          · rcases h1 uid row' hx with hh | ⟨u', hu', rest⟩
            · by_cases hk : u.id = uid
              · subst hk
                rw [alistGet_set_self] at hh
                have hrr : row = row' := by simpa using hh
                subst hrr
                refine Or.inr ⟨u, List.mem_cons_self _ _, rfl, ?_⟩
                intro oid hoid
                rcases hr1 oid hoid with hnil | hex
                · simp [alistGet] at hnil
                · exact hex
              · rw [alistGet_set_other sm u.id uid row hk] at hh
                exact Or.inl hh
            · exact Or.inr ⟨u', List.mem_cons_of_mem _ hu', rest⟩
          · rcases h2 key hx with hh | ⟨u', hu', rest⟩
            · rcases hr2 key hh with hold | ⟨o', ho', hkey, hav⟩
              · exact Or.inl hold
              · exact Or.inr ⟨u, List.mem_cons_self _ _, o', ho', hkey, hav⟩
            · exact Or.inr ⟨u', List.mem_cons_of_mem _ hu', rest⟩

/-- C5: when `build_score_matrix` returns, a pair whose user has a non-empty
availability set not containing the opportunity's time bucket contributes no
score-matrix entry and no `"uid|oid"` explanation key. Stated for stores
with distinct user/opportunity ids and `|`-unambiguous key composition, both
guaranteed by the dict-backed store. -/
theorem scorer_skips_unavailable (settings : Settings) (model : LogisticModel)
    (users : List User) (opps : List Opportunity) (store : StateStore)
    (wo : Option (List (String × Option ℝ))) (po : Option PricingOverrides)
    (af : Bool) (lf : Option ℝ)
    (sm : List (String × List (String × ℝ)))
    (ex : List (String × ScoreExplanation))
    (hok : build_score_matrix settings model users opps store wo po af lf =
      Except.ok (sm, ex))
    (u : User) (o : Opportunity) (hu : u ∈ users) (ho : o ∈ opps)
    (hne : u.availability ≠ []) (hnb : o.time_bucket ∉ u.availability)
    (hnodupU : (users.map User.id).Nodup)
    (hnodupO : (opps.map Opportunity.id).Nodup)
    (hkey : ∀ u' ∈ users, ∀ o' ∈ opps,
      u'.id ++ "|" ++ o'.id = u.id ++ "|" ++ o.id → u'.id = u.id ∧ o'.id = o.id) :
    alistGet ex (u.id ++ "|" ++ o.id) = none ∧
    ∀ row, alistGet sm u.id = some row → alistGet row o.id = none := by
  have havail : availability_ok u o = false := by
    rw [availability_ok, if_neg hne]
    simpa using hnb
  obtain ⟨h1, h2⟩ := buildAux_sound _ opps users [] [] sm ex hok
  constructor
  · rw [← Option.not_isSome_iff_eq_none]
    intro hx
    rcases h2 _ hx with hnil | ⟨u', hu', o', ho', hkey', hav⟩
    · simp [alistGet] at hnil
    · obtain ⟨hu'id, ho'id⟩ := hkey u' hu' o' ho' hkey'.symm
      have hueq : u' = u := List.inj_on_of_nodup_map hnodupU hu' hu hu'id
      have hoeq : o' = o := List.inj_on_of_nodup_map hnodupO ho' ho ho'id
      rw [hueq, hoeq] at hav
      rw [havail] at hav
      exact Bool.false_ne_true hav
  · intro row hrow
    rcases h1 u.id row hrow with hnil | ⟨u', hu', hid, hRowOK⟩
    · simp [alistGet] at hnil
    · have hueq : u' = u := List.inj_on_of_nodup_map hnodupU hu' hu hid
      subst hueq
      rw [← Option.not_isSome_iff_eq_none]
      intro hx
      obtain ⟨o', ho', hoid, hav⟩ := hRowOK o.id hx
      have hoeq : o' = o := List.inj_on_of_nodup_map hnodupO ho' ho hoid
      rw [hoeq] at hav
      rw [havail] at hav
      exact Bool.false_ne_true hav

/-- A user whose availability (`weekends`) excludes `oppEx`'s time bucket. -/
noncomputable def userW : User := { userEx with availability := ["weekends"] }

/-- Witness for C5: one user, one opportunity, availability mismatch: the
matrix holds an empty row and the explanation dict is empty. -/
theorem scorer_skips_unavailable_witness :
    build_score_matrix defaultSettings default_model [userW] [oppEx] emptyStore
      none none false none = Except.ok ([("u1", [])], []) ∧
    alistGet ([] : List (String × ScoreExplanation)) (userW.id ++ "|" ++ oppEx.id) =
      none ∧
    ∀ row, alistGet [("u1", ([] : List (String × ℝ)))] userW.id = some row →
      alistGet row oppEx.id = none := by
  have havail : availability_ok userW oppEx = false := by
    simp [availability_ok, userW, userEx, oppEx]
  have hok : build_score_matrix defaultSettings default_model [userW] [oppEx]
      emptyStore none none false none = Except.ok ([("u1", [])], []) := by
    simp only [build_score_matrix, buildAux, scoreRowAux,
      scorePair_skip _ userW oppEx havail, alistSet]
    simp [userW, userEx]
  have hmain := scorer_skips_unavailable defaultSettings default_model
    [userW] [oppEx] emptyStore none none false none [("u1", [])] [] hok
    userW oppEx (by simp) (by simp)
    (by simp [userW, userEx]) (by simp [userW, userEx, oppEx])
    (by simp) (by simp)
    (by
      intro u' hu' o' ho' _
      simp at hu' ho'
      subst hu'
      subst ho'
      exact ⟨rfl, rfl⟩)
  exact ⟨hok, hmain.1, hmain.2⟩

/-- A newcomer-cohort user with empty availability (so every pair passes the
availability gate). -/
noncomputable def userN : User :=
  { userEx with cohort := some "newcomer", availability := [] }

/-- C1 (code evaluated at the failing input): scoring a newcomer user
against a beginner-friendly opportunity crashes `build_score_matrix` with an
`AttributeError`, because the boost branch (solver.py line 100) reads
`settings.newcomer_boost` and the `Settings` dataclass (config.py lines
28-41) defines no such field. No pair can ever receive the boost the claim
describes. -/
theorem newcomer_boost_attribute_error :
    build_score_matrix defaultSettings default_model [userN] [oppEx] emptyStore
      none none false none =
      Except.error "AttributeError: 'Settings' object has no attribute 'newcomer_boost'" := by
  have ha : availability_ok userN oppEx = true := by
    simp [availability_ok, userN, userEx]
  have hn : isNewcomer userN = true := by
    rw [isNewcomer]
    simp only [userN, userEx]
    decide
  have hb : oppEx.beginner_friendly = true := by simp [oppEx]
  simp only [build_score_matrix, buildAux, scoreRowAux,
    scorePair_crash _ userN oppEx ha hn hb]

end Flok
